import Mathlib

/-!
# Verification of the document ingestion pipeline (`src/utils/documentParsing.ts`)

Shallow embedding of the quality-scored extraction pipeline: the pure text
helpers (`scoreQuality`, `countWords`), the four extraction backends
(`parseDocx`, `parsePdf`, `parseTxt`, `runOcr`) over explicit environments
standing for the external capabilities (mammoth, pdf.js, tesseract.js, the
ZIP reader, the file object), and the orchestrator `parseDocument`.

JavaScript numbers are modelled as rationals (`ℚ`), strings as Lean
strings (sequences of Unicode scalar values).  `text.split(/\s+/)` is
modelled by `splitWs`, which reproduces the JS semantics exactly,
including the empty boundary fields JS produces for leading/trailing
whitespace and the single empty field produced for the empty string.
Backends that await external promises are modelled as functions of an
environment record containing the values those awaits produce (or the
exceptions they throw, as `Except`/`Option`).  Resource usage (object
URLs, `getPage` calls) is made observable through explicit traces.
-/

namespace DocParse

/-! ## Definitions

String and number primitives, the data model, the error-result
records (each mirroring one object literal of the source), the four
backends over their environments, and the orchestrator. -/

/-- The character class matched by JavaScript's `\s` (and removed by
`String.prototype.trim`): space, tab, LF, VT, FF, CR, NBSP, and the
Unicode space separators, line/paragraph separators, narrow NBSP, medium
mathematical space, ideographic space and BOM. -/
def isJsWs (c : Char) : Bool :=
  let n := c.toNat
  n = 32 || n = 9 || n = 10 || n = 11 || n = 12 || n = 13 ||
  n = 0xA0 || n = 0x1680 || (0x2000 ≤ n && n ≤ 0x200A) ||
  n = 0x2028 || n = 0x2029 || n = 0x202F || n = 0x205F || n = 0x3000 || n = 0xFEFF

mutual

/-- One pass of JavaScript `s.split(/\s+/)`: `acc` holds the (reversed)
current field; a whitespace character closes the field and enters a run. -/
def splitWsAcc : List Char → List Char → List (List Char)
  | [], acc => [acc.reverse]
  | c :: rest, acc =>
    if isJsWs c then acc.reverse :: splitWsRun rest
    else splitWsAcc rest (c :: acc)

/-- Inside a whitespace run: skip further whitespace, then start the next
field (an exhausted input means the run was trailing, yielding an empty
last field as in JS). -/
def splitWsRun : List Char → List (List Char)
  | [] => [[]]
  | c :: rest => if isJsWs c then splitWsRun rest else splitWsAcc rest [c]

end

/-- JavaScript `s.split(/\s+/)`: the fields of `s` delimited by maximal
runs of whitespace.  A leading (resp. trailing) whitespace run produces an
empty first (resp. last) field, and the empty string produces one empty
field, exactly as in JS. -/
def splitWs (l : List Char) : List (List Char) := splitWsAcc l []

/-- JavaScript `s.trim()`: strip leading and trailing `\s` characters. -/
def jsTrim (l : List Char) : List Char :=
  ((l.dropWhile isJsWs).reverse.dropWhile isJsWs).reverse

/-- `jsTrim` on strings. -/
def jsTrimStr (s : String) : String := ⟨jsTrim s.data⟩

/-- Source `countWords` (documentParsing.ts:93-96):
`if (!text) return 0; return text.trim().split(/\s+/).length;`. -/
def countWords (s : String) : Nat :=
  if s = "" then 0 else (splitWs (jsTrim s.data)).length

/-- Modelled from the spec sentence "trim, split on runs of whitespace,
count tokens; empty text → 0": the number of (non-empty) tokens of the
trimmed text, i.e. the whitespace-run split with empty fields dropped. -/
def countWordsSpec (s : String) : Nat :=
  if s = "" then 0
  else ((splitWs (jsTrim s.data)).filter (fun f => !f.isEmpty)).length

/-- Is `pat` a prefix of `l`? -/
def isPrefixCh : List Char → List Char → Bool
  | [], _ => true
  | _ :: _, [] => false
  | a :: as, b :: bs => a = b && isPrefixCh as bs

/-- Does `pat` occur as a contiguous substring of `l`?
(models JavaScript `includes` / an unanchored regex literal test). -/
def hasSub (pat : List Char) : List Char → Bool
  | [] => isPrefixCh pat []
  | l@(_ :: rest) => isPrefixCh pat l || hasSub pat rest

/-- JavaScript `s.startsWith(pre)`. -/
def strStartsWith (pre s : String) : Bool := isPrefixCh pre.data s.data

/-- JavaScript `s.endsWith(suf)`. -/
def strEndsWith (suf s : String) : Bool :=
  isPrefixCh suf.data.reverse s.data.reverse

/-- JavaScript `s.toLowerCase()` (ASCII-adequate for the substring checks
the source performs on exception text). -/
def lowerStr (s : String) : String := ⟨s.data.map Char.toLower⟩

/-- JavaScript `s.split('.')`: split on each single dot, keeping empty
fields (the empty string yields one empty field). -/
def splitDot : List Char → List (List Char)
  | [] => [[]]
  | c :: rest =>
    if c = '.' then [] :: splitDot rest
    else
      match splitDot rest with
      | [] => [[c]]
      | f :: fs => (c :: f) :: fs

/-- U+FFFD replacement character (regex `/�/g`). -/
def isReplacementChar (c : Char) : Bool := c.toNat = 0xFFFD

/-- Control characters matched by `/[\x00-\x08\x0E-\x1F]/g`. -/
def isCtrlChar (c : Char) : Bool :=
  c.toNat ≤ 0x08 || (0x0E ≤ c.toNat && c.toNat ≤ 0x1F)

/-- Letters matched by `/[A-Za-zÀ-ɏ]/g`. -/
def isLetterChar (c : Char) : Bool :=
  (65 ≤ c.toNat && c.toNat ≤ 90) || (97 ≤ c.toNat && c.toNat ≤ 122) ||
  (0xC0 ≤ c.toNat && c.toNat ≤ 0x24F)

/-- The regex `/\/(Obj|stream|FlateDecode|endobj)/.test(text)`. -/
def hasPdfInternals (l : List Char) : Bool :=
  hasSub "/Obj".data l || hasSub "/stream".data l ||
  hasSub "/FlateDecode".data l || hasSub "/endobj".data l

/-- JavaScript `/` on (non-NaN, finite) numbers, modelled on `ℚ` in a
kernel-computable form; `ratDiv_eq_div` shows it is ordinary division. -/
def ratDiv (a b : ℚ) : ℚ := Rat.divInt (a.num * b.den) (a.den * b.num)

/-- Source `scoreQuality` (documentParsing.ts:68-88), with JS numbers
modelled as rationals. -/
def scoreQuality (s : String) : ℚ :=
  let l := s.data
  if l.isEmpty then 0
  else
    let len : ℚ := l.length
    let replacementChar : ℚ := ratDiv (l.countP isReplacementChar : ℚ) len
    let nonPrintable : ℚ := ratDiv (l.countP isCtrlChar : ℚ) len
    let pdfInternals : ℚ := if hasPdfInternals l then mkRat 1 4 else 0
    let tokens := splitWs l
    let avgTokenLen : ℚ :=
      ratDiv ((tokens.map List.length).sum : ℚ)
        (if tokens.length = 0 then 1 else (tokens.length : ℚ))
    let tooLongTokens : ℚ := if avgTokenLen > 40 then mkRat 1 5 else 0
    let whitespace : ℚ := ratDiv (l.countP isJsWs : ℚ) len
    let letters : ℚ := ratDiv (l.countP isLetterChar : ℚ) len
    let lowLetterRatio : ℚ := if letters < mkRat 1 5 then mkRat 1 5 else 0
    let lowWhitespaceRatio : ℚ := if whitespace < mkRat 1 20 then mkRat 1 10 else 0
    let score : ℚ := 1 - (mkRat 3 5 * replacementChar + mkRat 1 5 * nonPrintable +
      pdfInternals + tooLongTokens + lowLetterRatio + lowWhitespaceRatio)
    max 0 (min 1 score)

/-- The sum of weighted penalties as the spec words it: 0.6 times the
replacement-character fraction, 0.2 times the control-character fraction,
plus the fixed penalties 0.25 (PDF-internal tokens anywhere), 0.2 (mean
whitespace-token length over 40), 0.2 (letter fraction below 0.2) and
0.1 (whitespace fraction below 0.05). -/
def specPenaltySum (l : List Char) : ℚ :=
  let len : ℚ := l.length
  mkRat 3 5 * ratDiv (l.countP isReplacementChar : ℚ) len +
  mkRat 1 5 * ratDiv (l.countP isCtrlChar : ℚ) len +
  (if hasPdfInternals l then mkRat 1 4 else 0) +
  (if ratDiv (((splitWs l).map List.length).sum : ℚ)
      (if (splitWs l).length = 0 then (1 : ℚ) else ((splitWs l).length : ℚ)) > 40
   then mkRat 1 5 else 0) +
  (if ratDiv (l.countP isLetterChar : ℚ) len < mkRat 1 5 then mkRat 1 5 else 0) +
  (if ratDiv (l.countP isJsWs : ℚ) len < mkRat 1 20 then mkRat 1 10 else 0)

/-- Modelled from the spec's words for `scoreQuality`: 0 for empty text,
otherwise `1 − Σ(weighted penalties)` clamped to [0,1]. -/
def scoreQualitySpec (s : String) : ℚ :=
  if s.data.isEmpty then 0
  else max 0 (min 1 (1 - specPenaltySum s.data))

/-- The `error` field of a `ParseResult`
(`{code, message, actionable?, suggestedAction?}`). -/
structure ErrInfo where
  code : String
  message : String
  actionable : Option Bool := none
  suggestedAction : Option String := none
deriving Repr, DecidableEq

/-- Builds an `ErrInfo` record (code, message, actionable, suggestedAction). -/
def mkErr (code message : String) (actionable : Option Bool)
    (suggestedAction : Option String) : ErrInfo :=
  ⟨code, message, actionable, suggestedAction⟩

/-- `ParseResult` (documentParsing.ts:29-44).  The optional `meta` and
`pages` diagnostic fields are not modelled: no claim depends on them and
they ride along unchanged wherever a result is returned. -/
structure ParseResult where
  text : String
  score : ℚ
  source : String
  error : Option ErrInfo := none
deriving Repr, DecidableEq

/-- `ParseOptions` after merging with `DEFAULT_OPTIONS`
(`{...DEFAULT_OPTIONS, ...options}`, documentParsing.ts:53-62):
every field present, defaults as in the source. -/
structure ParseOptions where
  timeoutMs : ℚ := 30000
  maxPages : Nat := 50
  enableOcr : Bool := true
  ocrLanguage : String := "eng"
  minQualityScore : ℚ := mkRat 35 100
  minWordCount : ℚ := 30
deriving Repr, DecidableEq

/-- The merged default options. -/
def defaultOptions : ParseOptions := {}

/-- The uploaded file's metadata consulted by the pipeline:
`file.name` and `file.type` (the declared MIME type). -/
structure FileMeta where
  name : String
  type : String
deriving Repr, DecidableEq

/-- `file.name.split('.').pop()?.toLowerCase() || ''`
(documentParsing.ts:652, and the same computation at line 103). -/
def fileExtension (f : FileMeta) : String :=
  lowerStr ⟨(splitDot f.name.data).getLastD []⟩

/-- Source `isLegacyDoc` (documentParsing.ts:101-114): MIME type
`application/msword` or extension `doc`. -/
def isLegacyDoc (f : FileMeta) : Bool :=
  f.type = "application/msword" || fileExtension f = "doc"

/-- Lines 228-238 and 673-683 (identical literals). -/
def legacyDocResult : ParseResult :=
  { text := "", score := 0, source := "doc-not-supported",
    error := some (mkErr "LEGACY_DOC_FORMAT"
      "Legacy .doc format detected. Please convert to .docx before uploading."
      (some true) (some "Convert to .docx and try again")) }

/-- Lines 247-257. -/
def invalidSigResult : ParseResult :=
  { text := "", score := 0, source := "invalid-docx-signature",
    error := some (mkErr "INVALID_DOCX_SIGNATURE"
      "This file does not appear to be a valid DOCX file. The file may be corrupted."
      (some true) (some "Please try resaving the document in Word and upload again")) }

/-- Lines 301-311. -/
def notValidZipResult : ParseResult :=
  { text := "", score := 0, source := "mammoth-zip-error",
    error := some (mkErr "DOCX_NOT_VALID_ZIP"
      "This file appears to be corrupted or not a valid Office document. Please try resaving it in Word before uploading."
      (some true) (some "Resave document in Word and try again")) }

/-- Lines 314-324. -/
def passwordProtectedResult : ParseResult :=
  { text := "", score := 0, source := "mammoth-protected-doc",
    error := some (mkErr "DOCX_PASSWORD_PROTECTED"
      "This document appears to be password-protected. Please remove the protection before uploading."
      (some true) (some "Remove password protection and try again")) }

/-- Lines 353-363 and 796-806 (identical literals). -/
def docxNoTextResult : ParseResult :=
  { text := "", score := 0, source := "docx-extraction-failed",
    error := some (mkErr "DOCX_NO_TEXT_EXTRACTED"
      "No text could be extracted from this Word document. The document may contain only images, shapes, or text in unsupported elements."
      (some true) (some "Try saving the document as PDF and upload again")) }

/-- Lines 366-375, with the caught exception's text. -/
def docxGeneralErrorResult (msg : String) : ParseResult :=
  { text := "", score := 0, source := "docx-parse-failed",
    error := some (mkErr "DOCX_GENERAL_ERROR"
      ("An unexpected error occurred while processing the Word document: " ++ msg)
      (some false) none) }

/-- Lines 389-398 (pdfjs-dist unavailable). -/
def missingLibPdfResult : ParseResult :=
  { text := "", score := 0, source := "pdfjs-not-installed",
    error := some (mkErr "MISSING_LIBRARY"
      "The pdfjs-dist library is not installed." (some false) none) }

/-- Lines 404-414 and 487-497 (identical literals). -/
def pdfEncryptedResult : ParseResult :=
  { text := "", score := 0, source := "pdf-encrypted",
    error := some (mkErr "PDF_ENCRYPTED"
      "This PDF is password-protected. Please remove the password protection and try again."
      (some true) (some "Upload an unprotected version of this document")) }

/-- Lines 422-443: the no-text-layer result, whose message and
actionability depend on `enableOcr`. -/
def noTextLayerResult (enableOcr : Bool) : ParseResult :=
  if enableOcr then
    { text := "", score := 0, source := "pdf-no-text-layer",
      error := some (mkErr "PDF_NO_TEXT_LAYER"
        "This PDF does not contain selectable text and may need OCR processing."
        (some true) (some "Process with OCR")) }
  else
    { text := "", score := 0, source := "pdf-no-text-layer",
      error := some (mkErr "PDF_NO_TEXT_LAYER"
        "This PDF does not contain selectable text. Please enable OCR or upload a version with selectable text."
        (some false) none) }

/-- Lines 499-508. -/
def pdfParseErrorResult (msg : String) : ParseResult :=
  { text := "", score := 0, source := "pdf.js-failed",
    error := some (mkErr "PDF_PARSE_ERROR"
      ("Failed to parse PDF file: " ++ msg) (some false) none) }

/-- Lines 532-541. -/
def txtParseErrorResult (msg : String) : ParseResult :=
  { text := "", score := 0, source := "text-reader-failed",
    error := some (mkErr "TXT_PARSE_ERROR"
      ("Failed to parse text file: " ++ msg) (some false) none) }

/-- Lines 560-569 (tesseract.js unavailable). -/
def missingLibOcrResult : ParseResult :=
  { text := "", score := 0, source := "tesseract-not-installed",
    error := some (mkErr "MISSING_LIBRARY"
      "The tesseract.js library is not installed." (some false) none) }

/-- Lines 583-592. -/
def ocrPdfNotImplResult : ParseResult :=
  { text := "", score := 0, source := "ocr-pdf-not-implemented",
    error := some (mkErr "OCR_PDF_NOT_IMPLEMENTED"
      "OCR for PDFs is not implemented in this demo version." (some false) none) }

/-- Lines 594-603. -/
def ocrUnsupportedResult : ParseResult :=
  { text := "", score := 0, source := "ocr-unsupported-type",
    error := some (mkErr "OCR_UNSUPPORTED_TYPE"
      "OCR is only supported for image files in this demo." (some false) none) }

/-- Lines 631-640. -/
def ocrFailedResult (msg : String) : ParseResult :=
  { text := "", score := 0, source := "ocr-failed",
    error := some (mkErr "OCR_FAILED"
      ("OCR processing failed: " ++ msg) (some false) none) }

/-- Lines 751-761. -/
def unsupportedFormatResult (f : FileMeta) : ParseResult :=
  { text := "", score := 0, source := "unsupported-format",
    error := some (mkErr "UNSUPPORTED_FORMAT"
      ("Unsupported file format: ." ++ fileExtension f ++ ". Please upload .docx, .pdf, or .txt files.")
      (some true) (some "Upload a supported file format")) }

/-- Lines 808-818: the final no-text failure for non-docx files. -/
def noTextExtractedResult (opts : ParseOptions) : ParseResult :=
  { text := "", score := 0, source := "extraction-failed",
    error := some (mkErr "NO_TEXT_EXTRACTED"
      "Could not extract any text from the document. The file may be corrupted, password-protected, or contain only images without OCR processing."
      (some (if opts.enableOcr then false else true))
      (if opts.enableOcr then none else some "Enable OCR processing")) }

/-- Outcome of `mammoth.extractRawText({arrayBuffer})`. -/
inductive MammothOut where
  /-- The promise resolved; `s` is `result.value`. -/
  | value (s : String)
  /-- The promise rejected; `msg` is `String(error)`. -/
  | throws (msg : String)
deriving Repr, DecidableEq

/-- Environment of `parseDocx`: what the file bytes and the optional
libraries do on this input. -/
structure DocxEnv where
  /-- `file.arrayBuffer()` rejection (`String(error)`), if any. -/
  arrayBufferErr : Option String := none
  /-- `hasValidDocxSignature(arrayBuffer)`: the first four bytes are `PK\x03\x04`. -/
  signatureValid : Bool
  /-- `none`: the mammoth library could not be loaded (the dynamic import
  failed); otherwise the outcome of `extractRawText`. -/
  mammoth : Option MammothOut
  /-- Outcome of `extractDocxWithoutMammoth(arrayBuffer)`: `some t` when it
  resolves with the joined text runs, `none` when it throws (invalid ZIP,
  missing `word/document.xml`, ZIP reader failure). -/
  zip : Option String := none

/-- The direct-ZIP fallback path of `parseDocx` (documentParsing.ts:331-363):
used when mammoth is unavailable, returned empty text, or threw an
unclassified error. -/
def docxZipFallback (env : DocxEnv) : ParseResult :=
  match env.zip with
  | some t =>
    if t ≠ "" ∧ jsTrimStr t ≠ "" then
      { text := t, score := scoreQuality t, source := "direct-zip-extraction" }
    else docxNoTextResult
  | none => docxNoTextResult

/-- Source `parseDocx` (documentParsing.ts:223-377). -/
def parseDocx (file : FileMeta) (env : DocxEnv) : ParseResult :=
  if isLegacyDoc file then legacyDocResult
  else
    match env.arrayBufferErr with
    | some msg => docxGeneralErrorResult msg
    | none =>
      if ¬ env.signatureValid then invalidSigResult
      else
        match env.mammoth with
        | some (.value t) =>
          if t ≠ "" ∧ jsTrimStr t ≠ "" then
            { text := t, score := scoreQuality t, source := "mammoth" }
          else docxZipFallback env
        | some (.throws msg) =>
          let m := (lowerStr msg).data
          if hasSub "zip".data m || hasSub "archive".data m then notValidZipResult
          else if hasSub "password".data m || hasSub "protected".data m then
            passwordProtectedResult
          else docxZipFallback env
        | none => docxZipFallback env

/-- Environment of `parsePdf`: what pdf.js reports on this input. -/
structure PdfEnv where
  /-- Is `pdfjs.getDocument` present (the library loaded)? -/
  pdfjsAvailable : Bool
  /-- Outcome of `isPdfEncrypted(arrayBuffer)` (the encryption flag, or a
  password-related exception caught inside it). -/
  encrypted : Bool
  /-- `doc.numPages`. -/
  numPages : Nat
  /-- For each 1-based page number, the `str` of each of the page's text
  items (`content.items`). -/
  pageItems : Nat → List String
  /-- Exception thrown during the main extraction (`String(error)`), if any. -/
  extractErr : Option String := none

/-- The page-sampling loop of `pdfHasTextLayer` (documentParsing.ts:183-192):
walks the given pages accumulating `content.items.length`, stopping early
once more than 20 items are seen.  Returns the boolean outcome and the
list of pages actually passed to `getPage`. -/
def htlLoop (env : PdfEnv) : List Nat → Nat → Bool × List Nat
  | [], acc => (decide (0 < acc), [])
  | i :: rest, acc =>
    let c := acc + (env.pageItems i).length
    if 20 < c then (true, [i])
    else
      let (b, tr) := htlLoop env rest c
      (b, i :: tr)

/-- Source `pdfHasTextLayer` (documentParsing.ts:172-197): samples the
first `min(numPages, 3)` pages.  Second component: the `getPage` calls made. -/
def pdfHasTextLayer (env : PdfEnv) : Bool × List Nat :=
  htlLoop env ((List.range (min env.numPages 3)).map (· + 1)) 0

/-- `content.items.map(item => item.str).join(' ')` for one page. -/
def pdfPageText (env : PdfEnv) (i : Nat) : String :=
  " ".intercalate (env.pageItems i)

/-- Source `parsePdf` (documentParsing.ts:382-510), over merged options.
Second component: every page number passed to a `getPage` call (from the
text-layer probe and from the main page walk). -/
def parsePdf (file : FileMeta) (options : ParseOptions) (env : PdfEnv) :
    ParseResult × List Nat :=
  if ¬ env.pdfjsAvailable then (missingLibPdfResult, [])
  else if env.encrypted then (pdfEncryptedResult, [])
  else
    let probe := pdfHasTextLayer env
    if ¬ probe.1 then (noTextLayerResult options.enableOcr, probe.2)
    else
      match env.extractErr with
      | some msg =>
        let m := (lowerStr msg).data
        if hasSub "password".data m || hasSub "encrypted".data m then
          (pdfEncryptedResult, probe.2)
        else (pdfParseErrorResult msg, probe.2)
      | none =>
        let np := if options.maxPages = 0 then env.numPages
                  else min env.numPages options.maxPages
        let idx := (List.range np).map (· + 1)
        let fullText := String.join (idx.map (fun i => pdfPageText env i ++ "\n\n"))
        ({ text := fullText, score := scoreQuality fullText, source := "pdf.js" },
          probe.2 ++ idx)

/-- Source `parseTxt` (documentParsing.ts:515-543); the argument is the
outcome of `file.text()` (`.error` = the read rejected). -/
def parseTxt (read : Except String String) : ParseResult :=
  match read with
  | .ok t => { text := t, score := scoreQuality t, source := "text-reader" }
  | .error msg => txtParseErrorResult msg

/-- Environment of `runOcr`. -/
structure OcrEnv where
  /-- Could tesseract.js be loaded? -/
  tesseractAvailable : Bool
  /-- Outcome of `Tesseract.recognize(imageUrl, language, ...)`:
  `.ok` = resolved with `result.data.text`, `.error` = rejected. -/
  recognize : Except String String

/-- Whether the temporary object URL for the image was created
(`URL.createObjectURL`, line 606) and whether it was revoked
(`URL.revokeObjectURL`, line 613) in one `runOcr` invocation. -/
structure UrlTrace where
  created : Bool
  revoked : Bool
deriving Repr, DecidableEq

/-- Source `runOcr` (documentParsing.ts:548-642).  The revocation at line
613 sits on the straight-line path after the `await` of `recognize`, with
no `finally`: when `recognize` rejects, control jumps to the `catch` at
line 629, which returns `OCR_FAILED` without revoking the URL. -/
def runOcr (file : FileMeta) (options : ParseOptions) (env : OcrEnv) :
    ParseResult × UrlTrace :=
  if ¬ env.tesseractAvailable then (missingLibOcrResult, ⟨false, false⟩)
  else if ¬ strStartsWith "image/" file.type then
    if file.type = "application/pdf" || strEndsWith ".pdf" file.name then
      (ocrPdfNotImplResult, ⟨false, false⟩)
    else (ocrUnsupportedResult, ⟨false, false⟩)
  else
    match env.recognize with
    | .ok t => ({ text := t, score := scoreQuality t, source := "tesseract-ocr" }, ⟨true, true⟩)
    | .error msg => (ocrFailedResult msg, ⟨true, false⟩)

/-- Control flow after the format branch: an early `return r`, or falling
through to Step 2 carrying the current `bestResult`. -/
inductive Flow where
  | ret (r : ParseResult)
  | fall (best : ParseResult)
deriving Repr, DecidableEq

/-- The initial `bestResult` (documentParsing.ts:655-659). -/
def emptyBest : ParseResult := { text := "", score := 0, source := "none" }

/-- The acceptance block repeated in each format branch
(documentParsing.ts:690-706, 713-729, 732-748): accept on word count, else
on score, else keep the higher-scoring of result/best as `bestResult`. -/
def evalResult (opts : ParseOptions) (result best : ParseResult) : Flow :=
  if result.text ≠ "" then
    if (countWords result.text : ℚ) ≥ opts.minWordCount then .ret result
    else if result.score ≥ opts.minQualityScore then .ret result
    else if result.score > best.score then .fall result
    else .fall best
  else .fall best

/-- The OOXML Word MIME type. -/
def wordMime : String :=
  "application/vnd.openxmlformats-officedocument.wordprocessingml.document"

/-- The Word-family sniff (documentParsing.ts:667-669). -/
def isWordFamily (f : FileMeta) : Bool :=
  fileExtension f = "docx" || fileExtension f = "doc" ||
  f.type = "application/msword" || f.type = wordMime ||
  (f.type = "application/octet-stream" &&
    (fileExtension f = "docx" || fileExtension f = "doc"))

/-- The PDF-family sniff (documentParsing.ts:707). -/
def isPdfFamily (f : FileMeta) : Bool :=
  fileExtension f = "pdf" || f.type = "application/pdf" ||
  (f.type = "application/octet-stream" && fileExtension f = "pdf")

/-- The text-family sniff (documentParsing.ts:730). -/
def isTxtFamily (f : FileMeta) : Bool :=
  fileExtension f = "txt" || f.type = "text/plain" ||
  (f.type = "application/octet-stream" && fileExtension f = "txt")

/-- The codes the orchestrator short-circuits for Word results
(documentParsing.ts:687). -/
def hardDocxCodes : List String :=
  ["LEGACY_DOC_FORMAT", "DOCX_NOT_VALID_ZIP", "DOCX_PASSWORD_PROTECTED",
   "INVALID_DOCX_SIGNATURE"]

/-- `result.error?.code && [...].includes(result.error.code)`. -/
def hasHardDocxCode (r : ParseResult) : Bool :=
  match r.error with
  | some e => hardDocxCodes.contains e.code
  | none => false

/-- `result.error?.code === 'PDF_ENCRYPTED' || result.error?.code === 'PDF_NO_TEXT_LAYER'`
(documentParsing.ts:710). -/
def hasHardPdfCode (r : ParseResult) : Bool :=
  match r.error with
  | some e => e.code = "PDF_ENCRYPTED" || e.code = "PDF_NO_TEXT_LAYER"
  | none => false

/-- The values returned by the four backend calls the orchestrator can make
on this file. -/
structure Backends where
  docx : ParseResult
  pdf : ParseResult
  txt : ParseResult
  ocr : ParseResult
deriving Repr, DecidableEq

/-- Step 1 of the orchestrator (documentParsing.ts:666-762): sniff the
format, run the matching backend, short-circuit hard errors, apply the
acceptance block. -/
def stage1 (file : FileMeta) (b : Backends) (opts : ParseOptions) : Flow :=
  if isWordFamily file then
    if isLegacyDoc file then .ret legacyDocResult
    else if hasHardDocxCode b.docx then .ret b.docx
    else evalResult opts b.docx emptyBest
  else if isPdfFamily file then
    if hasHardPdfCode b.pdf then .ret b.pdf
    else evalResult opts b.pdf emptyBest
  else if isTxtFamily file then
    evalResult opts b.txt emptyBest
  else .ret (unsupportedFormatResult file)

/-- Step 2 (documentParsing.ts:765-772): return the retained best result
when it has truthy, non-whitespace text with at least 10 words. -/
def lowBarAccept (best : ParseResult) : Bool :=
  (best.text != "") && (jsTrimStr best.text != "") &&
  decide (10 ≤ countWords best.text)

/-- The OCR trigger (documentParsing.ts:774):
`(!bestResult.text || bestResult.score < 0.2) && opts.enableOcr`. -/
def ocrTrigger (opts : ParseOptions) (best : ParseResult) : Bool :=
  ((best.text == "") || decide (best.score < mkRat 1 5)) && opts.enableOcr

/-- OCR acceptance (documentParsing.ts:777-783): non-empty text with at
least `max(10, minWordCount / 2)` words. -/
def ocrAccept (opts : ParseOptions) (o : ParseResult) : Bool :=
  (o.text != "") &&
  decide ((countWords o.text : ℚ) ≥ max 10 (ratDiv opts.minWordCount 2))

/-- The best-so-far update after a rejected OCR result
(documentParsing.ts:784-787). -/
def ocrBest (o best : ParseResult) : ParseResult :=
  if (o.text != "") && decide (o.score > best.score) then o else best

/-- Which of the fallback events happened in a run. -/
structure OTrace where
  ocrRan : Bool := false
  ocrAccepted : Bool := false
deriving Repr, DecidableEq

/-- The closing returns (documentParsing.ts:790-819): any remaining
non-whitespace text, else the format-specific no-text failure. -/
def finalize (file : FileMeta) (opts : ParseOptions) (best : ParseResult) :
    ParseResult :=
  if (best.text != "") && (jsTrimStr best.text != "") then best
  else if fileExtension file = "docx" then docxNoTextResult
  else noTextExtractedResult opts

/-- Step 3, the OCR fallback (documentParsing.ts:773-789), followed by the
closing returns. -/
def ocrStage (file : FileMeta) (b : Backends) (opts : ParseOptions)
    (best : ParseResult) : ParseResult × OTrace :=
  if ocrTrigger opts best then
    if ocrAccept opts b.ocr then (b.ocr, ⟨true, true⟩)
    else (finalize file opts (ocrBest b.ocr best), ⟨true, false⟩)
  else (finalize file opts best, ⟨false, false⟩)

/-- Steps 2 and 3. -/
def stage2plus (file : FileMeta) (b : Backends) (opts : ParseOptions)
    (best : ParseResult) : ParseResult × OTrace :=
  if lowBarAccept best then (best, ⟨false, false⟩)
  else ocrStage file b opts best

/-- Source `parseDocument` (documentParsing.ts:647-848) over merged
options.  Second component: whether the OCR fallback was invoked and
whether its result was accepted outright. -/
def parseDocument (file : FileMeta) (b : Backends) (opts : ParseOptions) :
    ParseResult × OTrace :=
  match stage1 file b opts with
  | .ret r => (r, ⟨false, false⟩)
  | .fall best => stage2plus file b opts best

/-- Wires the orchestrator's `Backends` record to the concrete backend
embeddings. -/
def backendsOf (file : FileMeta) (opts : ParseOptions) (denv : DocxEnv)
    (penv : PdfEnv) (tenv : Except String String) (oenv : OcrEnv) : Backends :=
  { docx := parseDocx file denv
    pdf := (parsePdf file opts penv).1
    txt := parseTxt tenv
    ocr := (runOcr file opts oenv).1 }

/-- Error-bearing and text-bearing results are mutually exclusive: an
error forces empty text and zero score, and non-empty text forces the
absence of an error. -/
def backendInv (r : ParseResult) : Prop :=
  (r.error ≠ none → r.text = "" ∧ r.score = 0) ∧ (r.text ≠ "" → r.error = none)

/-- A concrete encrypted-PDF environment for the C7 witness. -/
def pdfEncEnv : PdfEnv :=
  { pdfjsAvailable := true, encrypted := true, numPages := 4,
    pageItems := fun _ => ["some", "text"], extractErr := none }

/-- An image upload whose OCR engine call rejects. -/
def ocrLeakFile : FileMeta := ⟨"scan.jpg", "image/jpeg"⟩

/-- Environment in which `Tesseract.recognize` rejects. -/
def ocrLeakEnv : OcrEnv := ⟨true, .error "Error: recognize failed"⟩

/-- The PDF upload used to refute the original C1. -/
def c1File : FileMeta := ⟨"report.pdf", "application/pdf"⟩

/-- pdf.js is not installed in this environment. -/
def c1PdfEnv : PdfEnv := ⟨false, false, 0, fun _ => [], none⟩

/-- The backend results `parseDocument` sees for `c1File`, computed from
the concrete backend embeddings. -/
def c1Backends : Backends :=
  backendsOf c1File defaultOptions ⟨none, true, none, none⟩ c1PdfEnv
    (.ok "") ⟨true, .ok ""⟩

/-- A Word upload whose backend reports structural corruption. -/
def c1WitFile : FileMeta := ⟨"b.docx", "application/octet-stream"⟩

/-- A PDF upload whose backend reports encryption. -/
def c1WitFileP : FileMeta := ⟨"c.pdf", "application/pdf"⟩

/-- The acceptance behaviour C2 asserts for a backend result `r`: the
stage-1 early return happens exactly on the two thresholds; an early
return is the orchestrator's final answer; a rejected result with positive
score is retained as best-so-far for the fallback stages. -/
def acceptsIff (file : FileMeta) (b : Backends) (opts : ParseOptions)
    (r : ParseResult) : Prop :=
  (stage1 file b opts = .ret r ↔
    (opts.minWordCount ≤ (countWords r.text : ℚ) ∨
      opts.minQualityScore ≤ r.score)) ∧
  (stage1 file b opts = .ret r →
    parseDocument file b opts = (r, ⟨false, false⟩)) ∧
  (¬(opts.minWordCount ≤ (countWords r.text : ℚ) ∨
      opts.minQualityScore ≤ r.score) →
    0 < r.score → stage1 file b opts = .fall r)

/-- The Word upload used in the C2 scenarios. -/
def c2File : FileMeta := ⟨"doc.docx", wordMime⟩

/-- Thirty words. -/
def w30 : String :=
  "w w w w w w w w w w w w w w w w w w w w w w w w w w w w w w"

/-- Five words. -/
def w5 : String := "w w w w w"

/-- The PDF upload driving the C5 witness run. -/
def c5File : FileMeta := ⟨"scan.pdf", "application/pdf"⟩

/-- Fifteen words of OCR output. -/
def w15 : String := "w w w w w w w w w w w w w w w"

/-- Backends for the C5 witness: the PDF backend fails softly, OCR
produces 15 words. -/
def c5Backends : Backends :=
  ⟨emptyBest, pdfParseErrorResult "boom", emptyBest,
    ⟨w15, mkRat 1 2, "tesseract-ocr", none⟩⟩

/-- The last character, when present, is not whitespace. -/
def lastNotWs (l : List Char) : Prop :=
  ∀ c, l.getLast? = some c → isJsWs c = false

/-! ## Theorems

Structural lemmas about the JS split/trim model, helper lemmas about
the orchestrator stages, and the claim theorems with their witnesses
and counterexamples. -/

/-- `(l.dropWhile p).length ≤ l.length` (termination helper). -/
theorem length_dropWhile_le' (p : Char → Bool) (l : List Char) :
    (l.dropWhile p).length ≤ l.length := by
  induction l with
  | nil => simp
  | cons c rest ih =>
    by_cases h : p c
    · simp only [List.dropWhile_cons_of_pos h]
      exact Nat.le_succ_of_le ih
    · simp [List.dropWhile_cons_of_neg h]

/-- `splitWsRun` restarts the split after the whitespace run. -/
theorem splitWsRun_eq (l : List Char) :
    splitWsRun l = splitWs (l.dropWhile isJsWs) := by
  induction l with
  | nil => rfl
  | cons c rest ih =>
    by_cases h : isJsWs c
    · rw [List.dropWhile_cons_of_pos h, ← ih]
      simp [splitWsRun, h]
    · rw [List.dropWhile_cons_of_neg (by simp [h])]
      simp [splitWsRun, splitWs, splitWsAcc, h]

/-- The accumulator only prefixes the first field. -/
theorem splitWsAcc_eq (l : List Char) : ∀ acc,
    splitWsAcc l acc =
      match splitWs l with
      | [] => [acc.reverse]
      | f :: fs => (acc.reverse ++ f) :: fs := by
  induction l with
  | nil => intro acc; simp [splitWs, splitWsAcc]
  | cons c rest ih =>
    intro acc
    by_cases h : isJsWs c
    · have hl : splitWs (c :: rest) = [] :: splitWsRun rest := by
        simp [splitWs, splitWsAcc, h]
      rw [hl]
      simp [splitWsAcc, h]
    · have hL : splitWsAcc (c :: rest) acc = splitWsAcc rest (c :: acc) := by
        simp [splitWsAcc, h]
      have hl : splitWs (c :: rest) = splitWsAcc rest [c] := by
        simp [splitWs, splitWsAcc, h]
      rw [hL, hl, ih (c :: acc), ih [c]]
      cases splitWs rest with
      | nil => simp
      | cons f fs => simp

/-- `splitWs` never returns the empty list of fields. -/
theorem splitWs_ne_nil (l : List Char) : splitWs l ≠ [] := by
  have h : ∀ (m : List Char) (acc : List Char), splitWsAcc m acc ≠ [] := by
    intro m
    induction m with
    | nil => intro acc; simp [splitWsAcc]
    | cons c rest ih =>
      intro acc
      by_cases h : isJsWs c
      · simp [splitWsAcc, h]
      · simpa [splitWsAcc, h] using ih (c :: acc)
  exact h l []

/-- Unfolding equation: a whitespace head contributes an empty field and
restarts after the whole run. -/
theorem splitWs_cons_ws {c : Char} (h : isJsWs c = true) (rest : List Char) :
    splitWs (c :: rest) = [] :: splitWs (rest.dropWhile isJsWs) := by
  rw [← splitWsRun_eq]
  simp [splitWs, splitWsAcc, h]

/-- Unfolding equation: a non-whitespace head joins the first field of the
tail's split. -/
theorem splitWs_cons_not_ws {c : Char} (h : isJsWs c = false) (rest : List Char) :
    splitWs (c :: rest) =
      match splitWs rest with
      | [] => [[c]]
      | f :: fs => (c :: f) :: fs := by
  have hl : splitWs (c :: rest) = splitWsAcc rest [c] := by
    simp [splitWs, splitWsAcc, h]
  rw [hl, splitWsAcc_eq rest [c]]
  cases splitWs rest <;> simp

/-- `ratDiv` is division on `ℚ`. -/
theorem ratDiv_eq_div (a b : ℚ) : ratDiv a b = a / b := by
  rw [ratDiv, Rat.divInt_eq_div]
  push_cast
  rw [← div_mul_div_comm, Rat.num_div_den]
  rw [div_eq_mul_inv a b]
  congr 1
  rw [Rat.inv_def', Rat.divInt_eq_div]
  push_cast
  rfl

theorem backendInv_of_failure (r : ParseResult) (h1 : r.text = "")
    (h2 : r.score = 0) : backendInv r :=
  ⟨fun _ => ⟨h1, h2⟩, fun hx => absurd h1 hx⟩

theorem backendInv_of_success (r : ParseResult) (h : r.error = none) :
    backendInv r :=
  ⟨fun he => absurd h he, fun _ => h⟩

theorem hasHardDocxCode_error {r : ParseResult}
    (h : hasHardDocxCode r = true) : r.error ≠ none := by
  unfold hasHardDocxCode at h
  cases he : r.error with
  | none => rw [he] at h; exact absurd h (by simp)
  | some e => simp [he]

theorem hasHardPdfCode_error {r : ParseResult}
    (h : hasHardPdfCode r = true) : r.error ≠ none := by
  unfold hasHardPdfCode at h
  cases he : r.error with
  | none => rw [he] at h; exact absurd h (by simp)
  | some e => simp [he]

/-- The acceptance block returns `.ret` exactly on the two threshold
tests, and otherwise retains the better-scoring result. -/
theorem evalResult_spec (opts : ParseOptions) (r best : ParseResult)
    (ht : r.text ≠ "") :
    (evalResult opts r best = .ret r ↔
      (opts.minWordCount ≤ (countWords r.text : ℚ) ∨
        opts.minQualityScore ≤ r.score)) ∧
    (¬(opts.minWordCount ≤ (countWords r.text : ℚ) ∨
        opts.minQualityScore ≤ r.score) →
      best.score < r.score → evalResult opts r best = .fall r) := by
  unfold evalResult
  constructor
  · constructor
    · intro h
      by_contra hc
      push_neg at hc
      obtain ⟨h1, h2⟩ := hc
      rw [if_pos ht, if_neg (not_le.mpr h1), if_neg (not_le.mpr h2)] at h
      split at h <;> simp_all
    · intro h
      rw [if_pos ht]
      rcases h with h | h
      · rw [if_pos (by exact_mod_cast h)]
      · by_cases h1 : opts.minWordCount ≤ (countWords r.text : ℚ)
        · rw [if_pos h1]
        · rw [if_neg h1, if_pos h]
  · intro hno hsc
    push_neg at hno
    rw [if_pos ht, if_neg (not_le.mpr hno.1), if_neg (not_le.mpr hno.2),
      if_pos hsc]

/-- Whatever `evalResult` early-returns has non-empty text. -/
theorem evalResult_ret_text {opts : ParseOptions} {r best x : ParseResult}
    (h : evalResult opts r best = .ret x) : x.text ≠ "" := by
  unfold evalResult at h
  by_cases ht : r.text = ""
  · rw [if_neg (by simp [ht])] at h
    exact absurd h (by simp)
  · rw [if_pos ht] at h
    split at h <;> first
      | (injection h with h; exact h ▸ ht)
      | (split at h <;> first
          | (injection h with h; exact h ▸ ht)
          | (split at h <;> exact absurd h (by simp)))

/-- `finalize` either returns retained non-empty text or a structured
error. -/
theorem finalize_text_or_error (file : FileMeta) (opts : ParseOptions)
    (best : ParseResult) :
    (finalize file opts best).text ≠ "" ∨
      (finalize file opts best).error ≠ none := by
  unfold finalize
  split
  · next h =>
    left
    simp only [Bool.and_eq_true, bne_iff_ne, ne_eq] at h
    exact h.1
  · split
    · right; simp [docxNoTextResult]
    · right; simp [noTextExtractedResult]

/-- Clamping to `[0,1]` really lands in `[0,1]`. -/
theorem clamp01_bounds (x : ℚ) : 0 ≤ max 0 (min 1 x) ∧ max 0 (min 1 x) ≤ 1 :=
  ⟨le_max_left 0 _, max_le (by norm_num) (min_le_left 1 x)⟩

theorem backendInv_noTextLayer (b : Bool) : backendInv (noTextLayerResult b) := by
  cases b <;> exact backendInv_of_failure _ rfl rfl

/-- **C4.** `scoreQuality` returns 0 for empty text and otherwise
1 minus the weighted penalty sum described by the spec (0.6·replacement
fraction + 0.2·control fraction + 0.25 for PDF-internal tokens + 0.2 for
mean token length over 40 + 0.2 for letter fraction below 0.2 + 0.1 for
whitespace fraction below 0.05), clamped to `[0,1]`; in particular every
score lies in `[0,1]`. -/
theorem scoreQuality_matches_spec_and_bounded (t : String) :
    scoreQuality t = scoreQualitySpec t ∧ scoreQuality "" = 0 ∧
    0 ≤ scoreQuality t ∧ scoreQuality t ≤ 1 := by
  have heq : scoreQuality t = scoreQualitySpec t := by
    unfold scoreQuality scoreQualitySpec specPenaltySum
    rfl
  refine ⟨heq, rfl, ?_, ?_⟩
  · rw [heq]
    unfold scoreQualitySpec
    split
    · norm_num
    · exact (clamp01_bounds _).1
  · rw [heq]
    unfold scoreQualitySpec
    split
    · norm_num
    · exact (clamp01_bounds _).2

/-- **C7.** When the encryption check reports the PDF as protected (and
pdf.js is present, so the check is meaningful), `parsePdf` returns the
`PDF_ENCRYPTED` failure with an empty `getPage` trace: no page of an
encrypted PDF is ever walked. -/
theorem encrypted_pdf_no_getPage (file : FileMeta) (opts : ParseOptions)
    (env : PdfEnv) (hlib : env.pdfjsAvailable = true)
    (henc : env.encrypted = true) :
    parsePdf file opts env = (pdfEncryptedResult, []) ∧
    pdfEncryptedResult.error.map ErrInfo.code = some "PDF_ENCRYPTED" := by
  constructor
  · unfold parsePdf
    rw [if_neg (by simp [hlib]), if_pos henc]
  · rfl

/-- Witness for C7 at a concrete encrypted PDF. -/
theorem encrypted_pdf_no_getPage_witness :
    parsePdf ⟨"locked.pdf", "application/pdf"⟩ defaultOptions pdfEncEnv =
      (pdfEncryptedResult, []) ∧
    pdfEncryptedResult.error.map ErrInfo.code = some "PDF_ENCRYPTED" :=
  encrypted_pdf_no_getPage ⟨"locked.pdf", "application/pdf"⟩ defaultOptions
    pdfEncEnv rfl rfl

/-- **C9.** The claim is violated by the code: on the failure exit path
of `runOcr` the temporary object URL is created but never revoked (the
`revokeObjectURL` call sits only on the success path, with no `finally`),
so a rejecting `recognize` leaks the reference while `runOcr` returns
`OCR_FAILED`. -/
theorem runOcr_url_leak_on_failure :
    (runOcr ocrLeakFile defaultOptions ocrLeakEnv).2.created = true ∧
    (runOcr ocrLeakFile defaultOptions ocrLeakEnv).2.revoked = false ∧
    (runOcr ocrLeakFile defaultOptions ocrLeakEnv).1.error.map ErrInfo.code =
      some "OCR_FAILED" := by
  refine ⟨rfl, rfl, rfl⟩

/-- **C10.** Every backend result is either a failure (error present,
empty text, zero score) or a success (non-empty text possible, no error):
error-bearing and text-bearing results are mutually exclusive for all
four backends on every input. -/
theorem backend_error_text_exclusive (file : FileMeta) (opts : ParseOptions)
    (denv : DocxEnv) (penv : PdfEnv) (tread : Except String String)
    (oenv : OcrEnv) :
    backendInv (parseDocx file denv) ∧
    backendInv ((parsePdf file opts penv).1) ∧
    backendInv (parseTxt tread) ∧
    backendInv ((runOcr file opts oenv).1) := by
  refine ⟨?_, ?_, ?_, ?_⟩
  · unfold parseDocx docxZipFallback
    try dsimp only
    repeat' split
    all_goals first
      | exact backendInv_of_failure _ rfl rfl
      | exact backendInv_of_success _ rfl
  · unfold parsePdf
    try dsimp only
    repeat' split
    all_goals first
      | exact backendInv_of_failure _ rfl rfl
      | exact backendInv_of_success _ rfl
      | exact backendInv_noTextLayer _
  · unfold parseTxt
    try dsimp only
    repeat' split
    all_goals first
      | exact backendInv_of_failure _ rfl rfl
      | exact backendInv_of_success _ rfl
  · unfold runOcr
    try dsimp only
    repeat' split
    all_goals first
      | exact backendInv_of_failure _ rfl rfl
      | exact backendInv_of_success _ rfl

/-- Witness for C10: a failing docx parse (invalid signature) has empty
text and zero score, and a successful txt parse carries no error. -/
theorem backend_error_text_exclusive_witness :
    ((parseDocx ⟨"a.docx", "application/octet-stream"⟩
        ⟨none, false, none, none⟩).text = "" ∧
      (parseDocx ⟨"a.docx", "application/octet-stream"⟩
        ⟨none, false, none, none⟩).score = 0) ∧
    (parseTxt (.ok "hello world")).error = none :=
  ⟨(backend_error_text_exclusive ⟨"a.docx", "application/octet-stream"⟩
      defaultOptions ⟨none, false, none, none⟩
      ⟨true, false, 0, fun _ => [], none⟩ (.ok "hello world")
      ⟨true, .ok ""⟩).1.1 (by decide),
    (backend_error_text_exclusive ⟨"a.docx", "application/octet-stream"⟩
      defaultOptions ⟨none, false, none, none⟩
      ⟨true, false, 0, fun _ => [], none⟩ (.ok "hello world")
      ⟨true, .ok ""⟩).2.2.1.2 (by decide)⟩

/-- Every result the orchestrator returns carries non-empty text or a
structured error (exhaustive walk of all return paths). -/
theorem pd_text_or_error (file : FileMeta) (b : Backends) (opts : ParseOptions) :
    (parseDocument file b opts).1.text ≠ "" ∨
      (parseDocument file b opts).1.error ≠ none := by
  unfold parseDocument
  cases hs : stage1 file b opts with
  | ret r =>
    dsimp only
    unfold stage1 at hs
    split at hs
    · split at hs
      · injection hs with hs
        right; rw [← hs]; simp [legacyDocResult]
      · split at hs
        · next hh =>
          injection hs with hs
          right; rw [← hs]; exact hasHardDocxCode_error hh
        · left; exact evalResult_ret_text hs
    · split at hs
      · split at hs
        · next hh =>
          injection hs with hs
          right; rw [← hs]; exact hasHardPdfCode_error hh
        · left; exact evalResult_ret_text hs
      · split at hs
        · left; exact evalResult_ret_text hs
        · injection hs with hs
          right; rw [← hs]; simp [unsupportedFormatResult]
  | fall best =>
    dsimp only
    unfold stage2plus
    split
    · next hlow =>
      left
      unfold lowBarAccept at hlow
      simp only [Bool.and_eq_true, bne_iff_ne, ne_eq, decide_eq_true_eq] at hlow
      exact hlow.1.1
    · unfold ocrStage
      split
      · split
        · next hacc =>
          left
          unfold ocrAccept at hacc
          simp only [Bool.and_eq_true, bne_iff_ne, ne_eq] at hacc
          exact hacc.1
        · exact finalize_text_or_error file opts _
      · exact finalize_text_or_error file opts _

/-- **C3.** `parseDocument` never returns empty text together with an
absent error: whenever the returned text is `""`, a structured error with
a code is present. -/
theorem no_silent_empty_text (file : FileMeta) (b : Backends)
    (opts : ParseOptions) (h : (parseDocument file b opts).1.text = "") :
    (parseDocument file b opts).1.error ≠ none := by
  rcases pd_text_or_error file b opts with ht | he
  · exact absurd h ht
  · exact he

/-- Witness for C3: an unsupported upload yields empty text, and the
theorem turns that into a present error. -/
theorem no_silent_empty_text_witness :
    (parseDocument ⟨"data.xyz", "application/x-foo"⟩
      ⟨emptyBest, emptyBest, emptyBest, emptyBest⟩ defaultOptions).1.error ≠
      none :=
  no_silent_empty_text ⟨"data.xyz", "application/x-foo"⟩
    ⟨emptyBest, emptyBest, emptyBest, emptyBest⟩ defaultOptions (by decide)

/-- **C1 (amended).** The codes the orchestrator actually short-circuits:
the legacy pre-check, the four Word hard codes, and the two PDF hard
codes each make `parseDocument` return the backend result unchanged with
no OCR fallback.  (The original claim's `MISSING_LIBRARY` is *not* in
either short-circuit list — see `missingLibrary_not_short_circuited`.) -/
theorem hard_errors_short_circuit (file : FileMeta) (b : Backends)
    (opts : ParseOptions) :
    (isWordFamily file = true → isLegacyDoc file = true →
      parseDocument file b opts = (legacyDocResult, ⟨false, false⟩)) ∧
    (isWordFamily file = true → isLegacyDoc file = false →
      hasHardDocxCode b.docx = true →
      parseDocument file b opts = (b.docx, ⟨false, false⟩)) ∧
    (isWordFamily file = false → isPdfFamily file = true →
      hasHardPdfCode b.pdf = true →
      parseDocument file b opts = (b.pdf, ⟨false, false⟩)) := by
  refine ⟨?_, ?_, ?_⟩
  · intro hw hl
    unfold parseDocument stage1
    rw [if_pos hw, if_pos hl]
  · intro hw hl hh
    unfold parseDocument stage1
    rw [if_pos hw, if_neg (by simp [hl]), if_pos hh]
  · intro hw hp hh
    unfold parseDocument stage1
    rw [if_neg (by simp [hw]), if_pos hp, if_pos hh]

/-- **C1 counterexample.** `MISSING_LIBRARY` is one of the claim's "hard"
codes, yet when `parsePdf` returns it the orchestrator does not return
that result unchanged: it proceeds to the OCR fallback and ends with
`NO_TEXT_EXTRACTED` instead. -/
theorem missingLibrary_not_short_circuited :
    c1Backends.pdf.error.map ErrInfo.code = some "MISSING_LIBRARY" ∧
    (parseDocument c1File c1Backends defaultOptions).2.ocrRan = true ∧
    (parseDocument c1File c1Backends defaultOptions).1 ≠ c1Backends.pdf ∧
    (parseDocument c1File c1Backends defaultOptions).1.error.map ErrInfo.code =
      some "NO_TEXT_EXTRACTED" := by
  refine ⟨rfl, rfl, by decide, rfl⟩

/-- Witness for the amended C1 at concrete hard-error results. -/
theorem hard_errors_short_circuit_witness :
    parseDocument c1WitFile ⟨notValidZipResult, emptyBest, emptyBest, emptyBest⟩
      defaultOptions = (notValidZipResult, ⟨false, false⟩) ∧
    parseDocument c1WitFileP ⟨emptyBest, pdfEncryptedResult, emptyBest, emptyBest⟩
      defaultOptions = (pdfEncryptedResult, ⟨false, false⟩) :=
  ⟨(hard_errors_short_circuit c1WitFile
      ⟨notValidZipResult, emptyBest, emptyBest, emptyBest⟩ defaultOptions).2.1
      (by decide) (by decide) (by decide),
    (hard_errors_short_circuit c1WitFileP
      ⟨emptyBest, pdfEncryptedResult, emptyBest, emptyBest⟩ defaultOptions).2.2
      (by decide) (by decide) (by decide)⟩

theorem acceptsIff_of_eval (file : FileMeta) (b : Backends)
    (opts : ParseOptions) (r : ParseResult)
    (hs : stage1 file b opts = evalResult opts r emptyBest)
    (ht : r.text ≠ "") : acceptsIff file b opts r := by
  refine ⟨?_, ?_, ?_⟩
  · rw [hs]
    exact (evalResult_spec opts r emptyBest ht).1
  · intro hr
    unfold parseDocument
    rw [hr]
  · intro hno hsc
    rw [hs]
    exact (evalResult_spec opts r emptyBest ht).2 hno hsc

/-- **C2.** For every backend result with non-empty text and no
short-circuited error code, `parseDocument` accepts it at stage 1 exactly
when its word count reaches `minWordCount` or its score reaches
`minQualityScore`; otherwise a positive-scoring result is retained as the
best-so-far for the fallback stages. -/
theorem acceptance_policy (file : FileMeta) (b : Backends)
    (opts : ParseOptions) :
    (isWordFamily file = true → isLegacyDoc file = false →
      hasHardDocxCode b.docx = false → b.docx.text ≠ "" →
      acceptsIff file b opts b.docx) ∧
    (isWordFamily file = false → isPdfFamily file = true →
      hasHardPdfCode b.pdf = false → b.pdf.text ≠ "" →
      acceptsIff file b opts b.pdf) ∧
    (isWordFamily file = false → isPdfFamily file = false →
      isTxtFamily file = true → b.txt.text ≠ "" →
      acceptsIff file b opts b.txt) := by
  refine ⟨?_, ?_, ?_⟩
  · intro hw hl hh ht
    refine acceptsIff_of_eval file b opts b.docx ?_ ht
    unfold stage1
    rw [if_pos hw, if_neg (by simp [hl]), if_neg (by simp [hh])]
  · intro hw hp hh ht
    refine acceptsIff_of_eval file b opts b.pdf ?_ ht
    unfold stage1
    rw [if_neg (by simp [hw]), if_pos hp, if_neg (by simp [hh])]
  · intro hw hp htx ht
    refine acceptsIff_of_eval file b opts b.txt ?_ ht
    unfold stage1
    rw [if_neg (by simp [hw]), if_neg (by simp [hp]), if_pos htx]

/-- Witness for C2: with the default thresholds (30 words, score 0.35), a
30-word docx extraction at score 0.1 is accepted, a 5-word one at score
0.9 is accepted, and a 5-word one at score 0.1 is rejected at stage 1 but
retained as best-so-far. -/
theorem acceptance_policy_witness :
    parseDocument c2File
      ⟨⟨w30, mkRat 1 10, "mammoth", none⟩, emptyBest, emptyBest, emptyBest⟩
      defaultOptions =
      (⟨w30, mkRat 1 10, "mammoth", none⟩, ⟨false, false⟩) ∧
    parseDocument c2File
      ⟨⟨w5, mkRat 9 10, "mammoth", none⟩, emptyBest, emptyBest, emptyBest⟩
      defaultOptions =
      (⟨w5, mkRat 9 10, "mammoth", none⟩, ⟨false, false⟩) ∧
    stage1 c2File
      ⟨⟨w5, mkRat 1 10, "mammoth", none⟩, emptyBest, emptyBest, emptyBest⟩
      defaultOptions = .fall ⟨w5, mkRat 1 10, "mammoth", none⟩ := by
  have h30 := (acceptance_policy c2File
    ⟨⟨w30, mkRat 1 10, "mammoth", none⟩, emptyBest, emptyBest, emptyBest⟩
    defaultOptions).1 (by decide) (by decide) (by decide) (by decide)
  have h09 := (acceptance_policy c2File
    ⟨⟨w5, mkRat 9 10, "mammoth", none⟩, emptyBest, emptyBest, emptyBest⟩
    defaultOptions).1 (by decide) (by decide) (by decide) (by decide)
  have h01 := (acceptance_policy c2File
    ⟨⟨w5, mkRat 1 10, "mammoth", none⟩, emptyBest, emptyBest, emptyBest⟩
    defaultOptions).1 (by decide) (by decide) (by decide) (by decide)
  exact ⟨h30.2.1 (h30.1.mpr (Or.inl (by decide))),
    h09.2.1 (h09.1.mpr (Or.inr (by decide))),
    h01.2.2 (by decide) (by decide)⟩

/-- **C5.** In every run that reaches the fallback stage, OCR runs exactly
when it is enabled and either no text was retained or the best score is
below 0.2; the OCR result is accepted outright exactly when its word count
reaches `max(10, minWordCount / 2)` (and is then the final result); a
rejected OCR result replaces the best-so-far only when its score is
strictly higher. -/
theorem ocr_fallback_policy (file : FileMeta) (b : Backends)
    (opts : ParseOptions) (best : ParseResult)
    (h1 : stage1 file b opts = .fall best)
    (h2 : lowBarAccept best = false) :
    ((parseDocument file b opts).2.ocrRan = true ↔
      (opts.enableOcr = true ∧ (best.text = "" ∨ best.score < mkRat 1 5))) ∧
    ((parseDocument file b opts).2.ocrAccepted = true ↔
      ((parseDocument file b opts).2.ocrRan = true ∧
        max 10 (ratDiv opts.minWordCount 2) ≤ (countWords b.ocr.text : ℚ))) ∧
    ((parseDocument file b opts).2.ocrAccepted = true →
      (parseDocument file b opts).1 = b.ocr) ∧
    (ocrBest b.ocr best ≠ best → best.score < b.ocr.score) := by
  have hrepl : ocrBest b.ocr best ≠ best → best.score < b.ocr.score := by
    unfold ocrBest
    split
    · next hcond =>
      intro _
      simp only [Bool.and_eq_true, bne_iff_ne, ne_eq, decide_eq_true_eq]
        at hcond
      exact hcond.2
    · intro h
      exact absurd rfl h
  have hp : parseDocument file b opts = ocrStage file b opts best := by
    unfold parseDocument
    rw [h1]
    dsimp only
    unfold stage2plus
    rw [if_neg (by simp [h2])]
  have htr : ocrTrigger opts best = true ↔
      (opts.enableOcr = true ∧ (best.text = "" ∨ best.score < mkRat 1 5)) := by
    unfold ocrTrigger
    simp only [Bool.and_eq_true, Bool.or_eq_true, beq_iff_eq,
      decide_eq_true_eq]
    exact and_comm
  have hacc : ∀ o : ParseResult, ocrAccept opts o = true ↔
      max 10 (ratDiv opts.minWordCount 2) ≤ (countWords o.text : ℚ) := by
    intro o
    unfold ocrAccept
    simp only [Bool.and_eq_true, bne_iff_ne, ne_eq, decide_eq_true_eq,
      ge_iff_le]
    constructor
    · exact fun h => h.2
    · intro h
      refine ⟨?_, h⟩
      intro hempty
      rw [hempty] at h
      have h10 : (10 : ℚ) ≤ ((countWords "" : Nat) : ℚ) :=
        le_trans (le_max_left _ _) h
      norm_num [countWords] at h10
  rw [hp]
  unfold ocrStage
  by_cases htrig : ocrTrigger opts best = true
  · by_cases haccb : ocrAccept opts b.ocr = true
    · rw [if_pos htrig, if_pos haccb]
      exact ⟨iff_of_true rfl (htr.mp htrig),
        iff_of_true rfl ⟨rfl, (hacc b.ocr).mp haccb⟩, fun _ => rfl, hrepl⟩
    · rw [if_pos htrig, if_neg haccb]
      refine ⟨iff_of_true rfl (htr.mp htrig), ?_, ?_, hrepl⟩
      · exact iff_of_false (by simp)
          (fun hx => haccb ((hacc b.ocr).mpr hx.2))
      · intro hx
        exact absurd hx (by simp)
  · rw [if_neg htrig]
    refine ⟨?_, ?_, ?_, hrepl⟩
    · exact iff_of_false (by simp) (fun hx => htrig (htr.mpr hx))
    · exact iff_of_false (by simp) (fun hx => absurd hx.1 (by simp))
    · intro hx
      exact absurd hx (by simp)

/-- Witness for C5: the run reaches the fallback, OCR fires (no text was
retained), and its 15-word result meets `max(10, 30/2) = 15`, becoming
the final result. -/
theorem ocr_fallback_policy_witness :
    (parseDocument c5File c5Backends defaultOptions).2.ocrRan = true ∧
    (parseDocument c5File c5Backends defaultOptions).2.ocrAccepted = true ∧
    (parseDocument c5File c5Backends defaultOptions).1 = c5Backends.ocr := by
  have h := ocr_fallback_policy c5File c5Backends defaultOptions emptyBest
    (by decide) (by decide)
  have hran : (parseDocument c5File c5Backends defaultOptions).2.ocrRan = true :=
    h.1.mpr ⟨rfl, Or.inl rfl⟩
  have hacce : (parseDocument c5File c5Backends defaultOptions).2.ocrAccepted =
      true :=
    h.2.1.mpr ⟨hran, by decide⟩
  exact ⟨hran, hacce, h.2.2.1 hacce⟩

theorem getLast?_cons_of_ne {α : Type} (c : α) {rest : List α}
    (h : rest ≠ []) : (c :: rest).getLast? = rest.getLast? := by
  cases rest with
  | nil => exact absurd rfl h
  | cons b l => exact List.getLast?_cons_cons

theorem mem_of_getLast?' {α : Type} {l : List α} {a : α}
    (h : l.getLast? = some a) : a ∈ l := by
  rw [List.getLast?_eq_some_iff] at h
  obtain ⟨ys, rfl⟩ := h
  simp

theorem getLast?_dropWhile (p : Char → Bool) (l : List Char)
    (h : l.dropWhile p ≠ []) : (l.dropWhile p).getLast? = l.getLast? := by
  induction l with
  | nil => simp at h
  | cons c rest ih =>
    by_cases hc : p c = true
    · rw [List.dropWhile_cons_of_pos hc] at h ⊢
      have hrest : rest ≠ [] := by
        intro he
        rw [he] at h
        simp at h
      rw [ih h, getLast?_cons_of_ne c hrest]
    · rw [List.dropWhile_cons_of_neg hc]

theorem head?_dropWhile_false (p : Char → Bool) (l : List Char) {c : Char}
    (h : (l.dropWhile p).head? = some c) : p c = false := by
  have hx := List.head?_dropWhile_not p l
  rw [h] at hx
  exact hx

/-- When a list has no trailing whitespace, every field of its split after
the first is non-empty; when additionally its head is not whitespace,
every field is non-empty. -/
theorem splitWs_fields_aux :
    ∀ n (l : List Char), l.length ≤ n → lastNotWs l →
      (∀ f ∈ (splitWs l).tail, f ≠ []) ∧
      (∀ c, l.head? = some c → isJsWs c = false →
        ∀ f ∈ splitWs l, f ≠ []) := by
  intro n
  induction n with
  | zero =>
    intro l hl _
    have hnil : l = [] := List.length_eq_zero.mp (Nat.le_zero.mp hl)
    subst hnil
    constructor
    · intro f hf
      simp [splitWs, splitWsAcc] at hf
    · intro c hc
      simp at hc
  | succ n ih =>
    intro l hl hlast
    cases l with
    | nil =>
      constructor
      · intro f hf
        simp [splitWs, splitWsAcc] at hf
      · intro c hc
        simp at hc
    | cons c rest =>
      by_cases hc : isJsWs c = true
      · have hrestne : rest ≠ [] := by
          intro he
          subst he
          have hx := hlast c (by simp)
          rw [hx] at hc
          exact absurd hc (by simp)
        have hlastr : lastNotWs rest := by
          intro a ha
          exact hlast a (by rw [getLast?_cons_of_ne c hrestne]; exact ha)
        obtain ⟨a, ha⟩ : ∃ a, rest.getLast? = some a := by
          cases hr : rest.getLast? with
          | none => exact absurd (List.getLast?_eq_none_iff.mp hr) hrestne
          | some a => exact ⟨a, rfl⟩
        have hanws : isJsWs a = false := hlastr a ha
        have hr'ne : rest.dropWhile isJsWs ≠ [] := by
          rw [Ne, List.dropWhile_eq_nil_iff]
          push_neg
          exact ⟨a, mem_of_getLast?' ha, by simp [hanws]⟩
        have hlastr' : lastNotWs (rest.dropWhile isJsWs) := by
          intro x hx
          rw [getLast?_dropWhile _ _ hr'ne] at hx
          exact hlastr x hx
        have hlen : (rest.dropWhile isJsWs).length ≤ n :=
          le_trans (length_dropWhile_le' _ _) (Nat.le_of_succ_le_succ hl)
        have IH := ih _ hlen hlastr'
        obtain ⟨h0, t0, ht0⟩ := List.exists_cons_of_ne_nil hr'ne
        have hd : (rest.dropWhile isJsWs).head? = some h0 := by
          rw [ht0]; rfl
        have hdnws : isJsWs h0 = false := head?_dropWhile_false isJsWs rest hd
        have hall : ∀ f ∈ splitWs (rest.dropWhile isJsWs), f ≠ [] :=
          IH.2 h0 hd hdnws
        constructor
        · rw [splitWs_cons_ws hc]
          intro f hf
          exact hall f hf
        · intro x hx hxw
          simp only [List.head?_cons, Option.some.injEq] at hx
          rw [← hx] at hxw
          rw [hxw] at hc
          exact absurd hc (by simp)
      · have hc' : isJsWs c = false := Bool.eq_false_iff.mpr hc
        have hlastr : lastNotWs rest := by
          intro a ha
          have hrne : rest ≠ [] := by
            intro he
            rw [he] at ha
            simp at ha
          exact hlast a (by rw [getLast?_cons_of_ne c hrne]; exact ha)
        have IH := ih rest (Nat.le_of_succ_le_succ hl) hlastr
        have htail : ∀ f ∈ (splitWs rest).tail, f ≠ [] := IH.1
        have heq := splitWs_cons_not_ws hc' rest
        constructor
        · rw [heq]
          rcases hsp : splitWs rest with _ | ⟨f0, fs⟩
          · intro g hg
            simp at hg
          · intro g hg
            dsimp only at hg
            simp only [List.tail_cons] at hg
            apply htail
            rw [hsp]
            simpa using hg
        · intro x hx hxw f hf
          rw [heq] at hf
          rcases hsp : splitWs rest with _ | ⟨f0, fs⟩
          · rw [hsp] at hf
            simp at hf
            rw [hf]
            simp
          · rw [hsp] at hf
            simp only [List.mem_cons] at hf
            rcases hf with hf | hf
            · rw [hf]; simp
            · exact htail f (by rw [hsp]; simpa using hf)

theorem jsTrim_ne_nil {l : List Char} (h : ∃ c ∈ l, isJsWs c = false) :
    jsTrim l ≠ [] := by
  unfold jsTrim
  simp only [ne_eq, List.reverse_eq_nil_iff]
  rw [List.dropWhile_eq_nil_iff]
  push_neg
  have hd : l.dropWhile isJsWs ≠ [] := by
    rw [Ne, List.dropWhile_eq_nil_iff]
    push_neg
    obtain ⟨c, hc, hw⟩ := h
    exact ⟨c, hc, by simp [hw]⟩
  obtain ⟨c0, d', hd'⟩ := List.exists_cons_of_ne_nil hd
  have hnws : isJsWs c0 = false :=
    head?_dropWhile_false isJsWs l (by rw [hd']; rfl)
  refine ⟨c0, ?_, by simp [hnws]⟩
  rw [List.mem_reverse, hd']
  simp

theorem jsTrim_head_not_ws (l : List Char) :
    ∀ c, (jsTrim l).head? = some c → isJsWs c = false := by
  intro c hc
  unfold jsTrim at hc
  rw [List.head?_reverse] at hc
  have hne : (l.dropWhile isJsWs).reverse.dropWhile isJsWs ≠ [] := by
    intro he
    rw [he] at hc
    simp at hc
  rw [getLast?_dropWhile _ _ hne, List.getLast?_reverse] at hc
  exact head?_dropWhile_false isJsWs l hc

theorem jsTrim_last_not_ws (l : List Char) : lastNotWs (jsTrim l) := by
  intro c hc
  unfold jsTrim at hc
  rw [List.getLast?_reverse] at hc
  exact head?_dropWhile_false isJsWs _ hc

/-- On text containing at least one non-whitespace character, the JS
trim-and-split field count agrees with the spec's token count. -/
theorem countWords_eq_spec {s : String}
    (h : ∃ c ∈ s.data, isJsWs c = false) : countWords s = countWordsSpec s := by
  have hsne : s ≠ "" := by
    intro he
    subst he
    obtain ⟨c, hc, _⟩ := h
    exact absurd hc (by rw [show ("" : String).data = [] from rfl]; simp)
  have htne : jsTrim s.data ≠ [] := jsTrim_ne_nil h
  obtain ⟨c0, t', ht'⟩ := List.exists_cons_of_ne_nil htne
  have hhead : isJsWs c0 = false :=
    jsTrim_head_not_ws s.data c0 (by rw [ht']; rfl)
  have hall : ∀ f ∈ splitWs (jsTrim s.data), f ≠ [] :=
    (splitWs_fields_aux (jsTrim s.data).length (jsTrim s.data) le_rfl
      (jsTrim_last_not_ws s.data)).2 c0 (by rw [ht']; rfl) hhead
  unfold countWords countWordsSpec
  rw [if_neg hsne, if_neg hsne]
  have hfil : (splitWs (jsTrim s.data)).filter (fun f => !f.isEmpty) =
      splitWs (jsTrim s.data) := by
    apply List.filter_eq_self.mpr
    intro a ha
    simpa [List.isEmpty_iff] using hall a ha
  rw [hfil]

/-- On whitespace-only non-empty text, `countWords` returns 1: the JS
split of the empty trimmed string yields a single empty field. -/
theorem countWords_ws_only {s : String} (h1 : s ≠ "")
    (h2 : ∀ c ∈ s.data, isJsWs c = true) : countWords s = 1 := by
  have hd : s.data.dropWhile isJsWs = [] := List.dropWhile_eq_nil_iff.mpr h2
  have ht : jsTrim s.data = [] := by
    unfold jsTrim
    rw [hd]
    rfl
  unfold countWords
  rw [if_neg h1, ht]
  rfl

/-- **C8 counterexample.** On the whitespace-only string `"   "` the code
returns 1 (JS splits the empty trimmed string into one empty token), while
the claimed trim-split-count rule yields 0 tokens. -/
theorem countWords_whitespace_cex :
    countWords "   " = 1 ∧ countWordsSpec "   " = 0 ∧
    countWords "   " ≠ countWordsSpec "   " :=
  ⟨by decide, by decide, by decide⟩

/-- **C8 (amended).** `countWords("")` is 0 and `countWords("a b  c")` is
3; on every string containing a non-whitespace character `countWords`
equals the number of whitespace-delimited tokens of the trimmed text; but
on whitespace-only non-empty strings it returns 1, not 0. -/
theorem countWords_amended (s : String) :
    (countWords "" = 0 ∧ countWords "a b  c" = 3) ∧
    ((∃ c ∈ s.data, isJsWs c = false) → countWords s = countWordsSpec s) ∧
    (s ≠ "" → (∀ c ∈ s.data, isJsWs c = true) → countWords s = 1) :=
  ⟨⟨by decide, by decide⟩, fun h => countWords_eq_spec h,
    fun h1 h2 => countWords_ws_only h1 h2⟩

/-- Witness for the amended C8 at concrete strings. -/
theorem countWords_amended_witness :
    countWords "a b  c" = countWordsSpec "a b  c" ∧ countWords " \t " = 1 :=
  ⟨(countWords_amended "a b  c").2.1 (by decide),
    (countWords_amended " \t ").2.2 (by decide) (by decide)⟩

end DocParse

